import Mathlib

/-!
Verification of the `Compressor` DSP core (src/AudioPluginDemo/Source/Compressor.h).

A shallow embedding of the single-channel dynamic-range compressor in
`src/AudioPluginDemo/Source/Compressor.h` over the real numbers.

Modelling conventions:

* C++ `float`/`double` arithmetic is modelled by `ℝ`.  Inside `ℝ` every value
  is finite, so the source's internal `std::isfinite` fallbacks on
  `compressedGain` (line 109) and `output` (line 118) can never fire in the
  model and are omitted; the `isfinite` check on the *input* sample (line 52)
  is genuine control flow and is modelled by the `Sample` type, which marks a
  sample as either a finite real value or a non-finite one (NaN or ±Inf).
* JUCE's `jlimit (lo, hi, v)` is translated literally.
* The member functions mutate `this`; here each one takes and returns a
  `Compressor` record.  The `mutable` metering fields `inputLevel` and
  `outputLevel` (lines 311-312) are never written by any code modelled here
  and are omitted from the record.
-/

/-- JUCE `jlimit (lowerLimit, upperLimit, valueToConstrain)`:
`v < lo ? lo : (hi < v ? hi : v)`. -/
noncomputable def jlimit (lo hi v : ℝ) : ℝ :=
  if v < lo then lo else if hi < v then hi else v

/-- A `float` argument as seen by `processSample`: either a finite real value,
or a non-finite one (NaN or ±Inf), for which `std::isfinite` returns `false`.
All non-finite floats are handled identically by the source (line 52), so one
constructor suffices. -/
inductive Sample where
  | finite (x : ℝ)
  | nonfinite


/-- The state of a `Compressor` object: the five user parameters
(lines 296-300), the derived coefficients (lines 303-304), the envelope
(line 307) and the sample rate (line 308), with the source's member
initializers as the default constructor's values. -/
@[ext]
structure Compressor where
  threshold : ℝ := -20
  ratio : ℝ := 4
  attack : ℝ := 10
  release : ℝ := 100
  makeupGain : ℝ := 0
  attackCoeff : ℝ := 0
  releaseCoeff : ℝ := 0
  envelope : ℝ := 0
  sampleRate : ℝ := 44100


/-- `Compressor()` — the default constructor (line 18): all fields take their
member-initializer values; `updateCoefficients` is NOT called. -/
noncomputable def defaultCompressor : Compressor := {}

/-- `Compressor(threshold, ratio, attack, release, makeupGain)` —
the five-parameter constructor (lines 21-29); it sets the five parameters and
leaves every other field at its member-initializer value
(`updateCoefficients` is NOT called). -/
noncomputable def mkCompressor (t r a rel m : ℝ) : Compressor :=
  { threshold := t, ratio := r, attack := a, release := rel, makeupGain := m }

/-- `updateCoefficients` (lines 245-266): when `sampleRate > 0`, convert the
attack/release times from milliseconds to sample counts, floor both counts at
one sample, derive one-pole coefficients `1 - exp (-2.2 / samples)` and clamp
them to `[0.001, 0.999]`; otherwise do nothing. -/
noncomputable def Compressor.updateCoefficients (c : Compressor) : Compressor :=
  if 0 < c.sampleRate then
    let attackSamples := max (c.attack * 0.001 * c.sampleRate) 1
    let releaseSamples := max (c.release * 0.001 * c.sampleRate) 1
    { c with
      attackCoeff := jlimit 0.001 0.999 (1 - Real.exp (-2.2 / attackSamples))
      releaseCoeff := jlimit 0.001 0.999 (1 - Real.exp (-2.2 / releaseSamples)) }
  else
    c

/-- `reset` (lines 43-46): clears the envelope only. -/
noncomputable def Compressor.reset (c : Compressor) : Compressor :=
  { c with envelope := 0 }

/-- `prepareToPlay (newSampleRate)` (lines 35-40): stores the sample rate,
recomputes the coefficients, then resets the envelope. -/
noncomputable def Compressor.prepareToPlay (c : Compressor) (newSampleRate : ℝ) : Compressor :=
  (Compressor.updateCoefficients { c with sampleRate := newSampleRate }).reset

/-- `setParameters` (lines 145-155): stores the five parameters, then
recomputes the coefficients. -/
noncomputable def Compressor.setParameters (c : Compressor) (t r a rel m : ℝ) : Compressor :=
  Compressor.updateCoefficients
    { c with threshold := t, ratio := r, attack := a, release := rel, makeupGain := m }

/-- `setThreshold` (lines 158-162): stores the value verbatim, then
recomputes the coefficients. -/
noncomputable def Compressor.setThreshold (c : Compressor) (v : ℝ) : Compressor :=
  Compressor.updateCoefficients { c with threshold := v }

/-- `setRatio` (lines 165-169): stores the value verbatim (no clamping), then
recomputes the coefficients. -/
noncomputable def Compressor.setRatio (c : Compressor) (v : ℝ) : Compressor :=
  Compressor.updateCoefficients { c with ratio := v }

/-- The `ratioPresets` table of `setRatioPreset` (line 174). -/
noncomputable def ratioPresets : List ℝ := [1, 2, 3, 4, 6, 8, 10, 20]

/-- `setRatioPreset (presetIndex)` (lines 172-179): for an index in `[0, 8)`
stores the preset ratio and recomputes the coefficients, otherwise does
nothing. -/
noncomputable def Compressor.setRatioPreset (c : Compressor) (presetIndex : ℤ) : Compressor :=
  if 0 ≤ presetIndex ∧ presetIndex < 8 then
    Compressor.updateCoefficients { c with ratio := ratioPresets.getD presetIndex.toNat 4 }
  else
    c

/-- `setAttack` (lines 204-208): stores the value verbatim (no clamping),
then recomputes the coefficients. -/
noncomputable def Compressor.setAttack (c : Compressor) (v : ℝ) : Compressor :=
  Compressor.updateCoefficients { c with attack := v }

/-- `setRelease` (lines 211-215): stores the value verbatim (no clamping),
then recomputes the coefficients. -/
noncomputable def Compressor.setRelease (c : Compressor) (v : ℝ) : Compressor :=
  Compressor.updateCoefficients { c with release := v }

/-- `setMakeupGain` (lines 218-221): stores the value; does NOT call
`updateCoefficients`. -/
noncomputable def Compressor.setMakeupGain (c : Compressor) (v : ℝ) : Compressor :=
  { c with makeupGain := v }

/-- `getRatio` (line 226). -/
noncomputable def Compressor.getRatio (c : Compressor) : ℝ := c.ratio

/-- `updateFromNormalizedParameters` (lines 280-291): maps the five
normalized values linearly onto the real-world ranges written in the source's
comments, then recomputes the coefficients. -/
noncomputable def Compressor.updateFromNormalizedParameters
    (c : Compressor) (tn rn an reln mn : ℝ) : Compressor :=
  Compressor.updateCoefficients
    { c with
      threshold := -60 + tn * 60
      ratio := 1 + rn * 19
      attack := 0.1 + an * 399.9
      release := 1 + reln * 399
      makeupGain := -30 + mn * 60 }

/-- Level detector stage of `processSample` (lines 56-61): absolute value
floored at `1e-10`, converted to dB as `20 * log10`, clamped to
`[-120, 20]`. -/
noncomputable def detectLevel (input : ℝ) : ℝ :=
  jlimit (-120) 20 (20 * Real.logb 10 (max |input| 1e-10))

/-- Gain-computer stage of `processSample` (lines 64-79): zero reduction at
or below threshold; above it, `over - over / max ratio 1`, capped at 60 dB.
The inner `overThreshold > 0` test of line 71 is kept verbatim. -/
noncomputable def Compressor.computeGainReduction (c : Compressor) (inputLevel : ℝ) : ℝ :=
  if c.threshold < inputLevel then
    let overThreshold := inputLevel - c.threshold
    if 0 < overThreshold then
      min (overThreshold - overThreshold / max c.ratio 1) 60
    else 0
  else 0

/-- Envelope-follower stage of `processSample` (lines 82-96): one-pole step
toward the target with the attack coefficient when the target exceeds the
envelope and the release coefficient otherwise, then clamped to `[0, 60]`. -/
noncomputable def Compressor.updateEnvelope (c : Compressor) (targetGainReduction : ℝ) : ℝ :=
  jlimit 0 60
    (if c.envelope < targetGainReduction then
      c.envelope + c.attackCoeff * (targetGainReduction - c.envelope)
    else
      c.envelope + c.releaseCoeff * (targetGainReduction - c.envelope))

/-- `softLimit` (lines 269-277): identity for `|input| ≤ 0.95`, otherwise
`tanh (input * 0.5) * 0.95`. -/
noncomputable def softLimit (input : ℝ) : ℝ :=
  if 0.95 < |input| then Real.tanh (input * 0.5) * 0.95 else input

/-- The body of `processSample` after the `isfinite` input check
(lines 55-122): level detection, gain computation, envelope update, gain
application (`gainInDb` clamped to `[-60, 20]`, linear gain `10^(dB/20)`
clamped to `[0.001, 10]`) and soft limiting.  Returns the output sample and
the updated state. -/
noncomputable def Compressor.processFinite (c : Compressor) (input : ℝ) : ℝ × Compressor :=
  let gainReduction := c.computeGainReduction (detectLevel input)
  let envelope := c.updateEnvelope gainReduction
  let gainInDb := jlimit (-60) 20 (-envelope + c.makeupGain)
  let compressedGain := jlimit 0.001 10 ((10 : ℝ) ^ (gainInDb / 20))
  let output := input * compressedGain
  (softLimit output, { c with envelope := envelope })

/-- `processSample` (lines 49-123): a non-finite input returns `0.0`
immediately, leaving the state untouched (line 52); a finite input runs the
full pipeline. -/
noncomputable def Compressor.processSample (c : Compressor) (input : Sample) : ℝ × Compressor :=
  match input with
  | .nonfinite => (0, c)
  | .finite x => c.processFinite x

/-- Processing a sequence of samples one by one, recording after each call
the returned output together with the state it left behind. -/
noncomputable def Compressor.processTrace (c : Compressor) : List Sample → List (ℝ × Compressor)
  | [] => []
  | i :: is =>
    let r := c.processSample i
    r :: r.2.processTrace is

/-!
Helper lemmas.

Basic facts about `jlimit` and numeric bounds on `Real.tanh`, used to settle
the claims below.
-/

theorem le_jlimit {lo hi : ℝ} (v : ℝ) (h : lo ≤ hi) : lo ≤ jlimit lo hi v := by
  rw [jlimit]; split_ifs <;> linarith

theorem jlimit_le {lo hi : ℝ} (v : ℝ) (h : lo ≤ hi) : jlimit lo hi v ≤ hi := by
  rw [jlimit]; split_ifs <;> linarith

theorem jlimit_eq_self {lo hi v : ℝ} (h1 : lo ≤ v) (h2 : v ≤ hi) : jlimit lo hi v = v := by
  rw [jlimit, if_neg (not_lt.mpr h1), if_neg (not_lt.mpr h2)]

theorem abs_tanh_le_one (x : ℝ) : |Real.tanh x| ≤ 1 := by
  rw [Real.tanh_eq_sinh_div_cosh, abs_div, abs_of_pos (Real.cosh_pos x), Real.abs_sinh,
    div_le_one (Real.cosh_pos x)]
  have h1 : Real.cosh |x| - Real.sinh |x| = Real.exp (-|x|) := Real.cosh_sub_sinh |x|
  have h2 : (0 : ℝ) < Real.exp (-|x|) := Real.exp_pos _
  have h3 : Real.cosh |x| = Real.cosh x := Real.cosh_abs x
  linarith

theorem abs_tanh (x : ℝ) : |Real.tanh x| = Real.tanh |x| := by
  rcases le_or_lt 0 x with h | h
  · rw [abs_of_nonneg h, abs_of_nonneg]
    rw [Real.tanh_eq_sinh_div_cosh]
    exact div_nonneg (Real.sinh_nonneg_iff.mpr h) (Real.cosh_pos x).le
  · have hs : Real.sinh x < 0 := Real.sinh_neg_iff.mpr h
    have ht : Real.tanh x ≤ 0 := by
      rw [Real.tanh_eq_sinh_div_cosh]
      exact (div_neg_of_neg_of_pos hs (Real.cosh_pos x)).le
    rw [abs_of_neg h, Real.tanh_neg, abs_of_nonpos ht]

theorem tanh_le_tanh_of_le {a b : ℝ} (h : a ≤ b) : Real.tanh a ≤ Real.tanh b := by
  rw [Real.tanh_eq_sinh_div_cosh, Real.tanh_eq_sinh_div_cosh,
    div_le_div_iff₀ (Real.cosh_pos a) (Real.cosh_pos b)]
  have hs : Real.sinh (b - a) = Real.sinh b * Real.cosh a - Real.cosh b * Real.sinh a :=
    Real.sinh_sub b a
  have hnn : 0 ≤ Real.sinh (b - a) := Real.sinh_nonneg_iff.mpr (by linarith)
  linarith

theorem tanh_half_lt_nine_nineteenths : Real.tanh (1 / 2) < 9 / 19 := by
  have hc := Real.cosh_pos (1 / 2 : ℝ)
  rw [Real.tanh_eq_sinh_div_cosh, div_lt_iff₀ hc, Real.sinh_eq, Real.cosh_eq]
  have hp : (0 : ℝ) < Real.exp (1 / 2) := Real.exp_pos _
  have hq : (0 : ℝ) < Real.exp (-(1 / 2)) := Real.exp_pos _
  have he : Real.exp (1 / 2 : ℝ) * Real.exp (1 / 2 : ℝ) = Real.exp 1 := by
    rw [← Real.exp_add]; norm_num
  have hn : Real.exp (-(1 / 2) : ℝ) * Real.exp (1 / 2 : ℝ) = 1 := by
    rw [← Real.exp_add]; norm_num
  have hlt : Real.exp 1 < 2.8 := lt_trans Real.exp_one_lt_d9 (by norm_num)
  nlinarith

/-!
The claims.
-/

/-- Claim C2: for every non-finite input (NaN or ±Inf), `processSample`
returns exactly `0.0` and leaves the whole compressor state unchanged; in
particular the envelope field has the same value after the call as before
it, so subsequent samples are processed as if the non-finite sample had
never arrived. -/
theorem C2_nonfinite_input_is_noop (c : Compressor) :
    c.processSample Sample.nonfinite = (0, c) ∧
      (c.processSample Sample.nonfinite).2.envelope = c.envelope :=
  ⟨rfl, rfl⟩

/-- Claim C4: in every `processSample` call on a finite input with target
reduction `T` and prior envelope `E`, the new envelope is
`jlimit 0 60 (E + attackCoeff * (T - E))` when `T > E` and
`jlimit 0 60 (E + releaseCoeff * (T - E))` when `T ≤ E` — so the attack
coefficient is used exactly when the target exceeds the current envelope —
and the updated envelope is never negative and never exceeds 60. -/
theorem C4_envelope_update (c : Compressor) (T : ℝ) :
    (c.envelope < T →
      c.updateEnvelope T = jlimit 0 60 (c.envelope + c.attackCoeff * (T - c.envelope))) ∧
    (T ≤ c.envelope →
      c.updateEnvelope T = jlimit 0 60 (c.envelope + c.releaseCoeff * (T - c.envelope))) ∧
    0 ≤ c.updateEnvelope T ∧ c.updateEnvelope T ≤ 60 := by
  refine ⟨fun h => ?_, fun h => ?_, ?_, ?_⟩
  · rw [Compressor.updateEnvelope, if_pos h]
  · rw [Compressor.updateEnvelope, if_neg (not_lt.mpr h)]
  · rw [Compressor.updateEnvelope]; exact le_jlimit _ (by norm_num)
  · rw [Compressor.updateEnvelope]; exact jlimit_le _ (by norm_num)

/-- Closed instance of `C4_envelope_update`: the default state has envelope
0 < 1, so the attack branch applies at target 1. -/
theorem C4_envelope_update_witness :
    defaultCompressor.updateEnvelope 1
      = jlimit 0 60
          (defaultCompressor.envelope
            + defaultCompressor.attackCoeff * (1 - defaultCompressor.envelope)) :=
  (C4_envelope_update defaultCompressor 1).1 (by norm_num [defaultCompressor])

/-- The gain-computer stage as the spec words it (claim C3): with detected
level `L = clamp (20 * log10 (max |x| 1e-10), -120, 20)`, the target
reduction is 0 when `L ≤ threshold` and otherwise
`min 60 (over - over / max ratio 1)` where `over = L - threshold`. -/
noncomputable def specTargetReduction (threshold ratio x : ℝ) : ℝ :=
  if jlimit (-120) 20 (20 * Real.logb 10 (max |x| 1e-10)) ≤ threshold then 0
  else
    min 60
      ((jlimit (-120) 20 (20 * Real.logb 10 (max |x| 1e-10)) - threshold)
        - (jlimit (-120) 20 (20 * Real.logb 10 (max |x| 1e-10)) - threshold) / max ratio 1)

/-- Claim C3: for every finite input `x`, the target (pre-smoothing) gain
reduction computed inside `processSample` equals the reference definition
`specTargetReduction`; in particular, for ratio 4.0 and a level 20 dB over
threshold, the target reduction is 15 dB. -/
theorem C3_target_reduction_formula :
    (∀ (c : Compressor) (x : ℝ),
      c.computeGainReduction (detectLevel x) = specTargetReduction c.threshold c.ratio x) ∧
    (∀ t : ℝ, (mkCompressor t 4 10 100 0).computeGainReduction (t + 20) = 15) := by
  constructor
  · intro c x
    simp only [Compressor.computeGainReduction, specTargetReduction, detectLevel]
    by_cases h : c.threshold < jlimit (-120) 20 (20 * Real.logb 10 (max |x| 1e-10))
    · rw [if_pos h, if_pos (by linarith), if_neg (not_le.mpr h), min_comm]
    · rw [if_neg h, if_pos (not_lt.mp h)]
  · intro t
    simp only [Compressor.computeGainReduction, mkCompressor]
    rw [if_pos (by linarith), if_pos (by linarith)]
    have h4 : max (4 : ℝ) 1 = 4 := by norm_num
    rw [h4, show t + 20 - t = (20 : ℝ) by ring]
    norm_num

/-- The gain-application and limiting stage as the spec and claim C5 word
it: `gainDb = clamp (-envelope + makeupGain, -60, 20)`,
`linearGain = 10^(gainDb/20)` clamped to `[0.001, 10]` (the claim's
"replaced by 1.0 if non-finite" fallback can never fire over `ℝ`, where
every power of 10 is finite, mirroring the dead `isfinite` guard in the
source), `output = input * linearGain` (likewise always finite here), and
finally `tanh (output * 0.5) * 0.95` when `|output| > 0.95`, else `output`
unchanged. -/
noncomputable def specOutputStage (c : Compressor) (x : ℝ) : ℝ :=
  let envelope := c.updateEnvelope (c.computeGainReduction (detectLevel x))
  let gainDb := jlimit (-60) 20 (-envelope + c.makeupGain)
  let linearGain := jlimit 0.001 10 ((10 : ℝ) ^ (gainDb / 20))
  let output := x * linearGain
  if 0.95 < |output| then Real.tanh (output * 0.5) * 0.95 else output

/-- Claim C5: for every finite input, after the envelope update the output
of `processSample` is computed exactly as `specOutputStage` describes, and
the state change is exactly the envelope update. -/
theorem C5_output_stage (c : Compressor) (x : ℝ) :
    (c.processFinite x).1 = specOutputStage c x ∧
      (c.processFinite x).2
        = { c with envelope := c.updateEnvelope (c.computeGainReduction (detectLevel x)) } :=
  ⟨rfl, rfl⟩

theorem softLimit_bounds (y : ℝ) : -1 ≤ softLimit y ∧ softLimit y ≤ 1 := by
  rw [softLimit]
  split_ifs with h
  · have ht := abs_le.mp (abs_tanh_le_one (y * 0.5))
    constructor <;> nlinarith [ht.1, ht.2]
  · have hy := abs_le.mp (not_lt.mp h)
    constructor <;> linarith [hy.1, hy.2]

theorem processSample_output_bounds (c : Compressor) (i : Sample) :
    -1 ≤ (c.processSample i).1 ∧ (c.processSample i).1 ≤ 1 := by
  cases i with
  | nonfinite =>
    constructor <;> norm_num [Compressor.processSample]
  | finite x =>
    exact softLimit_bounds _

theorem processSample_envelope_bounds (c : Compressor) (i : Sample)
    (h0 : 0 ≤ c.envelope) (h60 : c.envelope ≤ 60) :
    0 ≤ (c.processSample i).2.envelope ∧ (c.processSample i).2.envelope ≤ 60 := by
  cases i with
  | nonfinite =>
    exact ⟨h0, h60⟩
  | finite x =>
    have h1 : (c.processSample (Sample.finite x)).2.envelope
        = c.updateEnvelope (c.computeGainReduction (detectLevel x)) := rfl
    rw [h1, Compressor.updateEnvelope]
    exact ⟨le_jlimit _ (by norm_num), jlimit_le _ (by norm_num)⟩

theorem processTrace_bounds (l : List Sample) :
    ∀ c : Compressor, 0 ≤ c.envelope → c.envelope ≤ 60 →
      (c.processTrace l).Forall
        (fun p => (0 ≤ p.2.envelope ∧ p.2.envelope ≤ 60) ∧ (-1 ≤ p.1 ∧ p.1 ≤ 1)) := by
  induction l with
  | nil =>
    intro c _ _
    simp [Compressor.processTrace, List.Forall]
  | cons i is ih =>
    intro c h0 h60
    have he := processSample_envelope_bounds c i h0 h60
    have ho := processSample_output_bounds c i
    simp only [Compressor.processTrace, List.forall_cons]
    exact ⟨⟨he, ho⟩, ih _ he.1 he.2⟩

/-- Claim C1: for every sequence of finite float inputs processed by
`processSample` from a reset state, and for every parameter setting, after
each call the envelope field lies in `[0, 60]` and the returned output
sample lies in `[-1, 1]` (the limiter threshold being 0.95). -/
theorem C1_boundedness (c : Compressor) (inputs : List ℝ) :
    (c.reset.processTrace (inputs.map Sample.finite)).Forall
      (fun p => (0 ≤ p.2.envelope ∧ p.2.envelope ≤ 60) ∧ (-1 ≤ p.1 ∧ p.1 ≤ 1)) :=
  processTrace_bounds _ _ (le_refl 0) (by norm_num [Compressor.reset])

/-- Claim C6: with ratio set to 1.0 and starting from a reset state
(envelope = 0), `processSample` output equals input scaled only by makeup
gain: for every finite input `x`, the returned value is
`x * 10^(makeupGain/20)`, provided makeup gain is such that the gain clamps
are inactive (`-60 ≤ makeupGain ≤ 20`) and the scaled output stays within
the limiter threshold. -/
theorem C6_ratio_one_passthrough (c : Compressor) (x : ℝ)
    (hr : c.ratio = 1) (he : c.envelope = 0)
    (hm1 : -60 ≤ c.makeupGain) (hm2 : c.makeupGain ≤ 20)
    (hx : |x * (10 : ℝ) ^ (c.makeupGain / 20)| ≤ 0.95) :
    (c.processFinite x).1 = x * (10 : ℝ) ^ (c.makeupGain / 20) := by
  have hgr : c.computeGainReduction (detectLevel x) = 0 := by
    simp only [Compressor.computeGainReduction, hr]
    split_ifs with h1 h2
    · rw [max_self, div_one, sub_self]
      norm_num
    · rfl
    · rfl
  have henv : c.updateEnvelope 0 = 0 := by
    rw [Compressor.updateEnvelope, he, if_neg (lt_irrefl 0),
      show (0 : ℝ) + c.releaseCoeff * (0 - 0) = 0 by ring]
    exact jlimit_eq_self le_rfl (by norm_num)
  have hgain : jlimit (-60) 20 (-(0 : ℝ) + c.makeupGain) = c.makeupGain := by
    rw [neg_zero, zero_add]
    exact jlimit_eq_self hm1 hm2
  have hlo : (0.001 : ℝ) ≤ (10 : ℝ) ^ (c.makeupGain / 20) := by
    have h1 : ((10 : ℝ) ^ ((-3 : ℝ))) ≤ (10 : ℝ) ^ (c.makeupGain / 20) :=
      Real.rpow_le_rpow_of_exponent_le (by norm_num) (by linarith)
    have h2 : ((10 : ℝ) ^ ((-3 : ℝ))) = 0.001 := by
      rw [show ((-3 : ℝ)) = ((-3 : ℤ) : ℝ) by norm_num, Real.rpow_intCast]
      norm_num
    linarith
  have hhi : (10 : ℝ) ^ (c.makeupGain / 20) ≤ 10 := by
    have h1 : (10 : ℝ) ^ (c.makeupGain / 20) ≤ (10 : ℝ) ^ ((1 : ℝ)) :=
      Real.rpow_le_rpow_of_exponent_le (by norm_num) (by linarith)
    rwa [Real.rpow_one] at h1
  show softLimit (x * jlimit 0.001 10 ((10 : ℝ) ^
      (jlimit (-60) 20
        (-(c.updateEnvelope (c.computeGainReduction (detectLevel x))) + c.makeupGain) / 20)))
    = x * (10 : ℝ) ^ (c.makeupGain / 20)
  rw [hgr, henv, hgain, jlimit_eq_self hlo hhi, softLimit, if_neg (not_lt.mpr hx)]

/-- A concrete state with ratio 1 and every other field at its constructor
default, used to instantiate `C6_ratio_one_passthrough`. -/
noncomputable def unityRatioState : Compressor := { ratio := 1 }

/-- Closed instance of `C6_ratio_one_passthrough` at input 0.5 with makeup
gain 0. -/
theorem C6_ratio_one_passthrough_witness :
    (unityRatioState.processFinite 0.5).1
      = 0.5 * (10 : ℝ) ^ (unityRatioState.makeupGain / 20) :=
  C6_ratio_one_passthrough unityRatioState 0.5 rfl rfl
    (by norm_num [unityRatioState]) (by norm_num [unityRatioState])
    (by
      rw [show unityRatioState.makeupGain = 0 from rfl,
        show ((0 : ℝ) / 20) = 0 by norm_num, Real.rpow_zero, mul_one,
        abs_of_nonneg (by norm_num : (0 : ℝ) ≤ 0.5)]
      norm_num)

theorem softLimit_small_above (x : ℝ) (h1 : 0.95 < |x|) (h2 : |x| ≤ 1) :
    |softLimit x| < 0.45 := by
  rw [softLimit, if_pos h1, abs_mul, show |(0.95 : ℝ)| = 0.95 by norm_num,
    abs_tanh (x * 0.5)]
  have h4 : |x * 0.5| ≤ 1 / 2 := by
    rw [abs_mul, show |(0.5 : ℝ)| = 0.5 by norm_num]
    nlinarith
  have h5 : Real.tanh |x * 0.5| ≤ Real.tanh (1 / 2) := tanh_le_tanh_of_le h4
  have h6 := tanh_half_lt_nine_nineteenths
  linarith

/-- A concrete state whose threshold (20 dB) can never be exceeded by the
clamped detected level, so `processFinite` applies exactly unity gain and
the output equals `softLimit` of the input. -/
noncomputable def thresholdAt20 : Compressor := { threshold := 20 }

theorem thresholdAt20_out (x : ℝ) : (thresholdAt20.processFinite x).1 = softLimit x := by
  have hL : detectLevel x ≤ 20 := jlimit_le _ (by norm_num)
  have hgr : thresholdAt20.computeGainReduction (detectLevel x) = 0 := by
    rw [Compressor.computeGainReduction,
      if_neg (not_lt.mpr (by rw [show thresholdAt20.threshold = (20 : ℝ) from rfl]; exact hL))]
  have henv : thresholdAt20.updateEnvelope 0 = 0 := by
    rw [Compressor.updateEnvelope, show thresholdAt20.envelope = 0 from rfl,
      if_neg (lt_irrefl 0),
      show (0 : ℝ) + thresholdAt20.releaseCoeff * (0 - 0) = 0 by ring]
    exact jlimit_eq_self le_rfl (by norm_num)
  have hgain : jlimit (-60) 20 (-(0 : ℝ) + thresholdAt20.makeupGain) = 0 := by
    rw [show thresholdAt20.makeupGain = 0 from rfl, neg_zero, zero_add]
    exact jlimit_eq_self (by norm_num) (by norm_num)
  have hpow : (10 : ℝ) ^ ((0 : ℝ) / 20) = 1 := by
    rw [show ((0 : ℝ) / 20) = 0 by norm_num, Real.rpow_zero]
  show softLimit (x * jlimit 0.001 10 ((10 : ℝ) ^
      (jlimit (-60) 20
        (-(thresholdAt20.updateEnvelope
            (thresholdAt20.computeGainReduction (detectLevel x)))
          + thresholdAt20.makeupGain) / 20)))
    = softLimit x
  rw [hgr, henv, hgain, hpow, jlimit_eq_self (by norm_num) (by norm_num), mul_one]

/-- Claim C10: the soft limiter is the identity on `[-0.95, 0.95]` but jumps
at the limiter threshold: for `|x| ≤ 0.95`, `softLimit x = x`; for
`|x| > 0.95` the result is `tanh (x * 0.5) * 0.95`, whose magnitude stays
below 0.45 near the boundary (for `|x| ≤ 1`); hence the two inputs 0.95 and
0.951, closer together than 0.01, yield `processSample` outputs (in a unity
gain state) that differ by more than 0.5. -/
theorem C10_soft_limiter_jump :
    (∀ x : ℝ, |x| ≤ 0.95 → softLimit x = x) ∧
    (∀ x : ℝ, 0.95 < |x| → softLimit x = Real.tanh (x * 0.5) * 0.95) ∧
    (∀ x : ℝ, 0.95 < |x| → |x| ≤ 1 → |softLimit x| < 0.45) ∧
    (|(0.95 : ℝ) - 0.951| < 0.01 ∧
      0.5 < (thresholdAt20.processFinite 0.95).1 - (thresholdAt20.processFinite 0.951).1) := by
  refine ⟨fun x hx => ?_, fun x hx => ?_, fun x hx1 hx2 => softLimit_small_above x hx1 hx2,
    ?_, ?_⟩
  · rw [softLimit, if_neg (not_lt.mpr hx)]
  · rw [softLimit, if_pos hx]
  · rw [show (0.95 : ℝ) - 0.951 = -0.001 by norm_num]
    rw [abs_of_nonpos (by norm_num)]
    norm_num
  · rw [thresholdAt20_out, thresholdAt20_out]
    have e1 : softLimit 0.95 = (0.95 : ℝ) := by
      rw [softLimit, if_neg]
      rw [abs_of_nonneg (by norm_num : (0 : ℝ) ≤ 0.95)]
      norm_num
    have h2 : |(0.951 : ℝ)| = 0.951 := abs_of_nonneg (by norm_num)
    have e2 : |softLimit 0.951| < 0.45 :=
      softLimit_small_above 0.951 (by rw [h2]; norm_num) (by rw [h2]; norm_num)
    have e3 := (abs_lt.mp e2).2
    rw [e1]
    linarith

/-- Closed instance of `C10_soft_limiter_jump`: the identity branch at
input 0.5. -/
theorem C10_soft_limiter_jump_witness : softLimit 0.5 = 0.5 :=
  C10_soft_limiter_jump.1 0.5
    (by rw [abs_of_nonneg (by norm_num : (0 : ℝ) ≤ 0.5)]; norm_num)

theorem updateCoefficients_threshold (c : Compressor) :
    c.updateCoefficients.threshold = c.threshold := by
  rw [Compressor.updateCoefficients]; split_ifs <;> rfl

theorem updateCoefficients_ratio (c : Compressor) :
    c.updateCoefficients.ratio = c.ratio := by
  rw [Compressor.updateCoefficients]; split_ifs <;> rfl

theorem updateCoefficients_attack (c : Compressor) :
    c.updateCoefficients.attack = c.attack := by
  rw [Compressor.updateCoefficients]; split_ifs <;> rfl

theorem updateCoefficients_release (c : Compressor) :
    c.updateCoefficients.release = c.release := by
  rw [Compressor.updateCoefficients]; split_ifs <;> rfl

theorem updateCoefficients_makeupGain (c : Compressor) :
    c.updateCoefficients.makeupGain = c.makeupGain := by
  rw [Compressor.updateCoefficients]; split_ifs <;> rfl

theorem updateCoefficients_envelope (c : Compressor) :
    c.updateCoefficients.envelope = c.envelope := by
  rw [Compressor.updateCoefficients]; split_ifs <;> rfl

theorem updateCoefficients_sampleRate (c : Compressor) :
    c.updateCoefficients.sampleRate = c.sampleRate := by
  rw [Compressor.updateCoefficients]; split_ifs <;> rfl

/-- Counterexample to claim C8 as stated: `setRatio 0.5` stores 0.5
verbatim, so `getRatio` then returns 0.5, not a value `≥ 1`. -/
theorem C8_setters_clamp_counterexample :
    (defaultCompressor.setRatio 0.5).getRatio = 0.5 ∧
      ¬(1 ≤ (defaultCompressor.setRatio 0.5).getRatio) := by
  have h : (defaultCompressor.setRatio 0.5).getRatio = 0.5 := by
    rw [Compressor.getRatio, Compressor.setRatio, updateCoefficients_ratio]
  exact ⟨h, by rw [h]; norm_num⟩

/-- Claim C8 amended: the individual setters store out-of-range values
verbatim (so `getRatio` reports the raw value), but every use site clamps
defensively: the gain computer floors the ratio at 1.0 — a stored ratio
below 1 behaves exactly like ratio 1 — and `updateCoefficients` floors the
attack/release sample counts at one sample, so nonpositive attack/release
values produce the same coefficients as the minimum (value 0). -/
theorem C8_clamped_at_use :
    (∀ (c : Compressor) (r : ℝ), (c.setRatio r).getRatio = r) ∧
    (∀ (c : Compressor) (r L : ℝ), r ≤ 1 →
      (c.setRatio r).computeGainReduction L = (c.setRatio 1).computeGainReduction L) ∧
    (∀ (c : Compressor) (a : ℝ), a ≤ 0 →
      (c.setAttack a).attackCoeff = (c.setAttack 0).attackCoeff) ∧
    (∀ (c : Compressor) (rel : ℝ), rel ≤ 0 →
      (c.setRelease rel).releaseCoeff = (c.setRelease 0).releaseCoeff) := by
  refine ⟨fun c r => ?_, fun c r L h => ?_, fun c a h => ?_, fun c rel h => ?_⟩
  · rw [Compressor.getRatio, Compressor.setRatio, updateCoefficients_ratio]
  · have hth : (c.setRatio r).threshold = (c.setRatio 1).threshold := by
      rw [Compressor.setRatio, Compressor.setRatio,
        updateCoefficients_threshold, updateCoefficients_threshold]
    have hr1 : (c.setRatio r).ratio = r := by
      rw [Compressor.setRatio, updateCoefficients_ratio]
    have hr2 : (c.setRatio 1).ratio = 1 := by
      rw [Compressor.setRatio, updateCoefficients_ratio]
    have hmax : max ((c.setRatio r).ratio) 1 = max ((c.setRatio 1).ratio) 1 := by
      rw [hr1, hr2, max_eq_right h, max_self]
    rw [Compressor.computeGainReduction, Compressor.computeGainReduction, hth, hmax]
  · rcases lt_or_le 0 c.sampleRate with hsr | hsr
    · have hs : ∀ v : ℝ, v ≤ 0 → max (v * 0.001 * c.sampleRate) 1 = 1 := by
        intro v hv
        exact max_eq_right (by nlinarith)
      rw [Compressor.setAttack, Compressor.setAttack, Compressor.updateCoefficients,
        Compressor.updateCoefficients]
      rw [if_pos (by simpa using hsr), if_pos (by simpa using hsr)]
      simp only
      rw [hs a h, hs 0 le_rfl]
    · rw [Compressor.setAttack, Compressor.setAttack, Compressor.updateCoefficients,
        Compressor.updateCoefficients]
      rw [if_neg (by simpa using not_lt.mpr hsr), if_neg (by simpa using not_lt.mpr hsr)]
  · rcases lt_or_le 0 c.sampleRate with hsr | hsr
    · have hs : ∀ v : ℝ, v ≤ 0 → max (v * 0.001 * c.sampleRate) 1 = 1 := by
        intro v hv
        exact max_eq_right (by nlinarith)
      rw [Compressor.setRelease, Compressor.setRelease, Compressor.updateCoefficients,
        Compressor.updateCoefficients]
      rw [if_pos (by simpa using hsr), if_pos (by simpa using hsr)]
      simp only
      rw [hs rel h, hs 0 le_rfl]
    · rw [Compressor.setRelease, Compressor.setRelease, Compressor.updateCoefficients,
        Compressor.updateCoefficients]
      rw [if_neg (by simpa using not_lt.mpr hsr), if_neg (by simpa using not_lt.mpr hsr)]

/-- Closed instance of `C8_clamped_at_use`: a stored ratio of 0.5 yields the
same gain reduction as ratio 1 at detected level 0. -/
theorem C8_clamped_at_use_witness :
    (defaultCompressor.setRatio 0.5).computeGainReduction 0
      = (defaultCompressor.setRatio 1).computeGainReduction 0 :=
  C8_clamped_at_use.2.1 defaultCompressor 0.5 0 (by norm_num)

theorem updateCoefficients_pos (c : Compressor) (h : 0 < c.sampleRate) :
    c.updateCoefficients =
      { c with
        attackCoeff := jlimit 0.001 0.999
          (1 - Real.exp (-2.2 / max (c.attack * 0.001 * c.sampleRate) 1))
        releaseCoeff := jlimit 0.001 0.999
          (1 - Real.exp (-2.2 / max (c.release * 0.001 * c.sampleRate) 1)) } := by
  rw [Compressor.updateCoefficients, if_pos h]

theorem updateCoefficients_nonpos (c : Compressor) (h : ¬0 < c.sampleRate) :
    c.updateCoefficients = c := by
  rw [Compressor.updateCoefficients, if_neg h]

theorem updateCoefficients_idem (c : Compressor) :
    c.updateCoefficients.updateCoefficients = c.updateCoefficients := by
  rcases lt_or_le 0 c.sampleRate with h | h
  · have h2 : 0 < c.updateCoefficients.sampleRate := by
      rwa [updateCoefficients_sampleRate]
    rw [updateCoefficients_pos _ h2, updateCoefficients_pos _ h]
  · rw [updateCoefficients_nonpos _ (not_lt.mpr h), updateCoefficients_nonpos _ (not_lt.mpr h)]

/-- Claim C9: the normalized-parameter setter maps each of its five inputs
in `[0,1]` linearly to its documented real range and is deterministic for a
fixed normalized input: normalized threshold 0.5 yields `-30` dB, normalized
ratio `rn ∈ [0,1]` yields ratio `1 + rn * 19 ∈ [1, 20]`, and calling it a
second time with the same five values leaves the state identical to calling
it once. -/
theorem C9_normalized_parameters (c : Compressor) (tn rn an reln mn : ℝ) :
    ((c.updateFromNormalizedParameters tn rn an reln mn).threshold = -60 + tn * 60 ∧
      (c.updateFromNormalizedParameters tn rn an reln mn).ratio = 1 + rn * 19 ∧
      (c.updateFromNormalizedParameters tn rn an reln mn).attack = 0.1 + an * 399.9 ∧
      (c.updateFromNormalizedParameters tn rn an reln mn).release = 1 + reln * 399 ∧
      (c.updateFromNormalizedParameters tn rn an reln mn).makeupGain = -30 + mn * 60) ∧
    (c.updateFromNormalizedParameters 0.5 rn an reln mn).threshold = -30 ∧
    (0 ≤ rn → rn ≤ 1 →
      1 ≤ (c.updateFromNormalizedParameters tn rn an reln mn).ratio ∧
        (c.updateFromNormalizedParameters tn rn an reln mn).ratio ≤ 20) ∧
    ((c.updateFromNormalizedParameters tn rn an reln mn).updateFromNormalizedParameters
        tn rn an reln mn
      = c.updateFromNormalizedParameters tn rn an reln mn) := by
  have hth : ∀ v : ℝ, (c.updateFromNormalizedParameters v rn an reln mn).threshold
      = -60 + v * 60 := by
    intro v
    rw [Compressor.updateFromNormalizedParameters, updateCoefficients_threshold]
  have hra : (c.updateFromNormalizedParameters tn rn an reln mn).ratio = 1 + rn * 19 := by
    rw [Compressor.updateFromNormalizedParameters, updateCoefficients_ratio]
  refine ⟨⟨hth tn, hra, ?_, ?_, ?_⟩, ?_, fun h0 h1 => ⟨?_, ?_⟩, ?_⟩
  · rw [Compressor.updateFromNormalizedParameters, updateCoefficients_attack]
  · rw [Compressor.updateFromNormalizedParameters, updateCoefficients_release]
  · rw [Compressor.updateFromNormalizedParameters, updateCoefficients_makeupGain]
  · rw [hth 0.5]; norm_num
  · rw [hra]; nlinarith
  · rw [hra]; nlinarith
  · have hstep :
        ({ c.updateFromNormalizedParameters tn rn an reln mn with
            threshold := -60 + tn * 60
            ratio := 1 + rn * 19
            attack := 0.1 + an * 399.9
            release := 1 + reln * 399
            makeupGain := -30 + mn * 60 } : Compressor)
          = c.updateFromNormalizedParameters tn rn an reln mn := by
      ext
      · rw [hth tn]
      · rw [hra]
      · rw [Compressor.updateFromNormalizedParameters, updateCoefficients_attack]
      · rw [Compressor.updateFromNormalizedParameters, updateCoefficients_release]
      · rw [Compressor.updateFromNormalizedParameters, updateCoefficients_makeupGain]
      · rfl
      · rfl
      · rfl
      · rfl
    calc (c.updateFromNormalizedParameters tn rn an reln mn).updateFromNormalizedParameters
            tn rn an reln mn
        = ({ c.updateFromNormalizedParameters tn rn an reln mn with
            threshold := -60 + tn * 60
            ratio := 1 + rn * 19
            attack := 0.1 + an * 399.9
            release := 1 + reln * 399
            makeupGain := -30 + mn * 60 } : Compressor).updateCoefficients := rfl
      _ = (c.updateFromNormalizedParameters tn rn an reln mn).updateCoefficients := by
          rw [hstep]
      _ = c.updateFromNormalizedParameters tn rn an reln mn := updateCoefficients_idem _

/-- Closed instance of `C9_normalized_parameters`: normalized ratio 1 maps
into the documented range `[1, 20]`. -/
theorem C9_normalized_parameters_witness :
    1 ≤ (defaultCompressor.updateFromNormalizedParameters 0 1 0 0 0).ratio ∧
      (defaultCompressor.updateFromNormalizedParameters 0 1 0 0 0).ratio ≤ 20 :=
  (C9_normalized_parameters defaultCompressor 0 1 0 0 0).2.2.1 (by norm_num) (by norm_num)

/-- The states reachable through the public operations of the class, exactly
as claim C7 lists them: construction (either constructor), `prepareToPlay`,
`reset`, the setters, and `processSample`. -/
inductive Reachable : Compressor → Prop where
  | constructDefault : Reachable defaultCompressor
  | construct (t r a rel m : ℝ) : Reachable (mkCompressor t r a rel m)
  | prepare {c : Compressor} (sr : ℝ) : Reachable c → Reachable (c.prepareToPlay sr)
  | reset {c : Compressor} : Reachable c → Reachable c.reset
  | setParameters {c : Compressor} (t r a rel m : ℝ) :
      Reachable c → Reachable (c.setParameters t r a rel m)
  | setThreshold {c : Compressor} (v : ℝ) : Reachable c → Reachable (c.setThreshold v)
  | setRatio {c : Compressor} (v : ℝ) : Reachable c → Reachable (c.setRatio v)
  | setRatioPreset {c : Compressor} (i : ℤ) : Reachable c → Reachable (c.setRatioPreset i)
  | setAttack {c : Compressor} (v : ℝ) : Reachable c → Reachable (c.setAttack v)
  | setRelease {c : Compressor} (v : ℝ) : Reachable c → Reachable (c.setRelease v)
  | setMakeupGain {c : Compressor} (v : ℝ) : Reachable c → Reachable (c.setMakeupGain v)
  | setNormalized {c : Compressor} (tn rn an reln mn : ℝ) :
      Reachable c → Reachable (c.updateFromNormalizedParameters tn rn an reln mn)
  | process {c : Compressor} (i : Sample) : Reachable c → Reachable (c.processSample i).2

/-- Both derived coefficients lie in the open interval `(0, 1)`. -/
def coeffOK (c : Compressor) : Prop :=
  0 < c.attackCoeff ∧ c.attackCoeff < 1 ∧ 0 < c.releaseCoeff ∧ c.releaseCoeff < 1

/-- Counterexample to claim C7 as stated: the state produced by the default
constructor is reachable (construction is one of the public operations the
claim quantifies over), yet both its coefficients are 0, which is outside
`(0, 1)` — the constructors never call `updateCoefficients`. -/
theorem C7_coefficients_counterexample :
    Reachable defaultCompressor ∧ ¬coeffOK defaultCompressor := by
  refine ⟨Reachable.constructDefault, fun h => ?_⟩
  have h0 : defaultCompressor.attackCoeff = 0 := rfl
  rw [coeffOK, h0] at h
  exact lt_irrefl 0 h.1

theorem coeffOK_updateCoefficients_pos (c : Compressor) (hs : 0 < c.sampleRate) :
    coeffOK c.updateCoefficients := by
  rw [updateCoefficients_pos c hs]
  refine ⟨?_, ?_, ?_, ?_⟩
  · exact lt_of_lt_of_le (by norm_num) (le_jlimit _ (by norm_num))
  · exact lt_of_le_of_lt (jlimit_le _ (by norm_num)) (by norm_num)
  · exact lt_of_lt_of_le (by norm_num) (le_jlimit _ (by norm_num))
  · exact lt_of_le_of_lt (jlimit_le _ (by norm_num)) (by norm_num)

theorem coeffOK_updateCoefficients {c : Compressor} (h : coeffOK c) :
    coeffOK c.updateCoefficients := by
  rcases lt_or_le 0 c.sampleRate with hs | hs
  · exact coeffOK_updateCoefficients_pos c hs
  · rw [updateCoefficients_nonpos c (not_lt.mpr hs)]
    exact h

theorem coeffOK_processSample {c : Compressor} (i : Sample) (h : coeffOK c) :
    coeffOK (c.processSample i).2 := by
  cases i with
  | finite x => exact h
  | nonfinite => exact h

/-- The states reachable once the coefficients have been recomputed with a
positive sample rate at least once: rooted at any `prepareToPlay` call with
a positive rate, and closed under every public operation. -/
inductive ReadyReachable : Compressor → Prop where
  | prepareFirst (c : Compressor) (sr : ℝ) : 0 < sr → ReadyReachable (c.prepareToPlay sr)
  | prepare {c : Compressor} (sr : ℝ) : ReadyReachable c → ReadyReachable (c.prepareToPlay sr)
  | reset {c : Compressor} : ReadyReachable c → ReadyReachable c.reset
  | setParameters {c : Compressor} (t r a rel m : ℝ) :
      ReadyReachable c → ReadyReachable (c.setParameters t r a rel m)
  | setThreshold {c : Compressor} (v : ℝ) : ReadyReachable c → ReadyReachable (c.setThreshold v)
  | setRatio {c : Compressor} (v : ℝ) : ReadyReachable c → ReadyReachable (c.setRatio v)
  | setRatioPreset {c : Compressor} (i : ℤ) :
      ReadyReachable c → ReadyReachable (c.setRatioPreset i)
  | setAttack {c : Compressor} (v : ℝ) : ReadyReachable c → ReadyReachable (c.setAttack v)
  | setRelease {c : Compressor} (v : ℝ) : ReadyReachable c → ReadyReachable (c.setRelease v)
  | setMakeupGain {c : Compressor} (v : ℝ) :
      ReadyReachable c → ReadyReachable (c.setMakeupGain v)
  | setNormalized {c : Compressor} (tn rn an reln mn : ℝ) :
      ReadyReachable c → ReadyReachable (c.updateFromNormalizedParameters tn rn an reln mn)
  | process {c : Compressor} (i : Sample) : ReadyReachable c → ReadyReachable (c.processSample i).2

/-- Claim C7 amended: the claim fails only at construction — a freshly
constructed `Compressor` has both coefficients equal to 0 (see the
counterexample) because neither constructor calls `updateCoefficients`.
Once the coefficients have been recomputed with a positive sample rate
(e.g. by any `prepareToPlay` with a positive rate, as required before
processing), both lie in `(0, 1)`, and every public operation — including
setters that change `attack`/`release`, which immediately recompute the
coefficients — keeps them there, so no stale coefficient outside `(0, 1)`
is ever applied after that point. -/
theorem C7_coefficients_amended (c : Compressor) (h : ReadyReachable c) : coeffOK c := by
  induction h with
  | prepareFirst c sr hsr =>
    exact coeffOK_updateCoefficients_pos { c with sampleRate := sr } (by simpa using hsr)
  | prepare sr _ ih =>
    exact coeffOK_updateCoefficients ih
  | reset _ ih => exact ih
  | setParameters t r a rel m _ ih => exact coeffOK_updateCoefficients ih
  | setThreshold v _ ih => exact coeffOK_updateCoefficients ih
  | setRatio v _ ih => exact coeffOK_updateCoefficients ih
  | setRatioPreset i _ ih =>
    rw [Compressor.setRatioPreset]
    split_ifs
    · exact coeffOK_updateCoefficients ih
    · exact ih
  | setAttack v _ ih => exact coeffOK_updateCoefficients ih
  | setRelease v _ ih => exact coeffOK_updateCoefficients ih
  | setMakeupGain v _ ih => exact ih
  | setNormalized tn rn an reln mn _ ih => exact coeffOK_updateCoefficients ih
  | process i _ ih => exact coeffOK_processSample i ih

/-- Closed instance of `C7_coefficients_amended`: after preparing the
default-constructed state at 44100 Hz, both coefficients are in `(0, 1)`. -/
theorem C7_coefficients_amended_witness : coeffOK (defaultCompressor.prepareToPlay 44100) :=
  C7_coefficients_amended _
    (ReadyReachable.prepareFirst defaultCompressor 44100 (by norm_num))
